import Mathlib

/-!
# Verification of the asset-hash engine (`src/index.js`)

A shallow embedding of the asset hashing and manifest reconciliation
engine.  JavaScript strings are Lean `String`s, Node `Buffer`s are
`List Nat` byte sequences, the filesystem is an explicit record of
regular files, directories and pending asynchronous stream copies, and
the cryptographic digest provider (`crypto.createHash(..).digest('hex')`),
an external collaborator per the design, is a parameter of the model.
Fallible filesystem calls run in `Except JsError`.
-/

namespace AssetHash

/-! ## JavaScript value model -/

/-- A JavaScript content value as it reaches `generateHash`: a string, a
Node `Buffer` (byte list), or `null`. -/
inductive Contents where
  | str (s : String)
  | buf (b : List Nat)
  | nullv
deriving DecidableEq, Repr

/-- JavaScript truthiness of a content value: the empty string and `null`
are falsy; every `Buffer` object is truthy, even a zero-length one. -/
def jsTruthy : Contents → Bool
  | .str s => s != ""
  | .buf _ => true
  | .nullv => false

/-- Bytes of a string (`Buffer.from(s)` modulo encoding). -/
def strBytes (s : String) : List Nat :=
  s.data.map Char.toNat

/-- `Buffer.prototype.toString` (modulo encoding). -/
def bytesToString (b : List Nat) : String :=
  String.mk (b.map Char.ofNat)

/-- The byte content carried by a JavaScript content value. -/
def contentBytes : Contents → List Nat
  | .str s => strBytes s
  | .buf b => b
  | .nullv => []

/-! String primitives, implemented by structural recursion on the
character list so that every computation reduces inside the kernel. -/

/-- Containment of `sub` at some position of the character list. -/
def charsIncludes (sub : List Char) : List Char → Bool
  | [] => sub.isEmpty
  | c :: cs => sub.isPrefixOf (c :: cs) || charsIncludes sub cs

/-- Replacement of the first occurrence of a nonempty pattern. -/
def charsReplaceFirst (pat repl : List Char) : List Char → List Char
  | [] => []
  | c :: cs =>
    if pat.isPrefixOf (c :: cs) then repl ++ (c :: cs).drop pat.length
    else c :: charsReplaceFirst pat repl cs

/-- Fueled replacement of every occurrence of a nonempty pattern, fuel
bounded by the list length. -/
def charsReplaceAllAux (pat repl : List Char) : Nat → List Char → List Char
  | _, [] => []
  | 0, s => s
  | fuel + 1, c :: cs =>
    if pat.isPrefixOf (c :: cs) then
      repl ++ charsReplaceAllAux pat repl fuel ((c :: cs).drop pat.length)
    else
      c :: charsReplaceAllAux pat repl fuel cs

/-- Replacement of every occurrence of a nonempty pattern. -/
def charsReplaceAll (pat repl s : List Char) : List Char :=
  charsReplaceAllAux pat repl s.length s

/-- Split on a single separator character. -/
def charsSplitOn (sep : Char) : List Char → List (List Char)
  | [] => [[]]
  | c :: cs =>
    if c = sep then [] :: charsSplitOn sep cs
    else
      match charsSplitOn sep cs with
      | [] => [[c]]
      | g :: gs => (c :: g) :: gs

/-- Lexicographic comparison of character lists. -/
def charsLt : List Char → List Char → Bool
  | [], [] => false
  | [], _ :: _ => true
  | _ :: _, [] => false
  | a :: as, b :: bs => if a < b then true else if b < a then false else charsLt as bs

/-- String split on a single separator character. -/
def strSplitOnChar (sep : Char) (s : String) : List String :=
  (charsSplitOn sep s.data).map String.mk

/-- String prefix test. -/
def strStartsWith (s pre : String) : Bool :=
  pre.data.isPrefixOf s.data

/-- String suffix test. -/
def strEndsWith (s suf : String) : Bool :=
  suf.data.reverse.isPrefixOf s.data.reverse

/-- String lexicographic order. -/
def strLt (a b : String) : Bool :=
  charsLt a.data b.data

/-- JavaScript `s.indexOf(sub) !== -1`: substring containment, with
`indexOf("") === 0` so the empty string is always contained. -/
def jsIncludes (s sub : String) : Bool :=
  if sub = "" then true else charsIncludes sub.data s.data

/-- JavaScript `String.prototype.replace` with a string pattern: replaces
only the first occurrence; with an empty pattern the replacement is
prepended. -/
def jsReplaceFirst (s pat repl : String) : String :=
  if pat = "" then repl ++ s
  else String.mk (charsReplaceFirst pat.data repl.data s.data)

/-! ## Node `path` functions, modelled for ordinary relative paths -/

/-- The last `/`-separated component of a path (`p` itself when it has no
separator). -/
def lastComponent (p : String) : String :=
  (strSplitOnChar '/' p).getLastD ""

/-- Node `path.extname`: the suffix of the basename from its last dot,
empty when the basename has no dot or only a leading dot. -/
def extname (p : String) : String :=
  let base := lastComponent p
  match strSplitOnChar '.' base with
  | [] => ""
  | [_] => ""
  | "" :: [_] => ""
  | parts => "." ++ parts.getLastD ""

/-- Node `path.basename(p, ext)`: the last component, with the suffix
`ext` removed when it is a proper suffix. -/
def basenameExt (p ext : String) : String :=
  let base := lastComponent p
  if ext != "" && base != ext && strEndsWith base ext then
    base.dropRight ext.length
  else
    base

/-- Node `path.dirname`: everything before the last separator, `"."` for
a bare filename. -/
def dirname (p : String) : String :=
  match (strSplitOnChar '/' p).dropLast with
  | [] => "."
  | parts => String.intercalate "/" parts

/-- Node `path.join` on two segments, with the normalizations the engine
relies on: a leading `""` or `"."` segment disappears, and the join of
two empty segments is `"."`. -/
def pathJoin (a b : String) : String :=
  if a = "" ∨ a = "." then (if b = "" then "." else b)
  else if b = "" then a
  else a ++ "/" ++ b

/-- Node `path.relative(base, p)` for the engine's use: with an empty
base (the model of resolving against the current working directory) the
path is returned as-is; a genuine prefix is stripped. -/
def pathRelative (base p : String) : String :=
  if base = "" then p
  else if strStartsWith p (base ++ "/") then p.drop (base.length + 1)
  else p

/-- The model of `process.cwd()`: paths in the model are already
relative to the working directory. -/
def processCwd : String := ""

/-! ## lodash template rendering -/

/-- `_.template(tpl)({name, hash, ext})` for templates built from the
three documented placeholders: each placeholder occurrence is replaced by
its value. -/
def renderTemplate (tpl nameV hashV extV : String) : String :=
  String.mk (charsReplaceAll "<%= ext %>".data extV.data
    (charsReplaceAll "<%= hash %>".data hashV.data
      (charsReplaceAll "<%= name %>".data nameV.data tpl.data)))

/-! ## Filesystem model -/

/-- Error values surfaced by the Node APIs the engine calls. -/
inductive JsError where
  | enoent (p : String)
  | eisdir (p : String)
  | referenceError (n : String)
deriving DecidableEq, Repr

/-- The filesystem: regular files with string contents, directories, and
the copies that `fs.createReadStream(src).pipe(fs.createWriteStream(dst))`
has initiated but that the event loop has not yet performed.  A stream
pipe transfers no data during the synchronous remainder of the call that
started it, so the destination file is not part of `files` when the call
returns. -/
structure FS where
  files : List (String × String)
  dirs : List String
  pending : List (String × String)
deriving DecidableEq, Repr

/-- `fs.readFileSync` as a lookup; `none` models the thrown `ENOENT`. -/
def readFile (fs : FS) (p : String) : Option String :=
  fs.files.lookup p

/-- `fs.unlinkSync`: removes a regular file; a directory raises `EISDIR`
and a missing path `ENOENT`. -/
def unlinkSync (fs : FS) (p : String) : Except JsError FS :=
  if (fs.files.lookup p).isSome then
    Except.ok { fs with files := fs.files.filter (fun e => e.1 != p) }
  else if fs.dirs.contains p then
    Except.error (.eisdir p)
  else
    Except.error (.enoent p)

/-- Glob matching for the patterns the engine builds: a literal path, or
a single `*` wildcard matching any run of non-separator characters. -/
def globMatch (pattern p : String) : Bool :=
  match strSplitOnChar '*' pattern with
  | [lit] => p == lit
  | [pre, suf] =>
      strStartsWith p pre && strEndsWith p suf &&
      decide (pre.length + suf.length ≤ p.length) &&
      !(((p.drop pre.length).dropRight suf.length).data.contains '/')
  | _ => false

/-- Insertion into an alphabetically sorted list of paths. -/
def insertSorted (x : String) : List String → List String
  | [] => [x]
  | y :: ys => if strLt x y then x :: y :: ys else y :: insertSorted x ys

/-- Alphabetical sort, matching `glob.sync`'s default sorted output. -/
def sortStrings (l : List String) : List String :=
  l.foldr insertSorted []

/-- `glob.sync(pattern)`: the existing filesystem entries (files and
directories) matching the pattern, sorted. -/
def globSync (fs : FS) (pattern : String) : List String :=
  sortStrings (((fs.files.map Prod.fst) ++ fs.dirs).filter (globMatch pattern))

/-- `fs.readdirSync(d)`: the names of the immediate children of `d`. -/
def readdirSync (fs : FS) (d : String) : List String :=
  sortStrings (((fs.files.map Prod.fst) ++ fs.dirs).filterMap (fun p =>
    if strStartsWith p (d ++ "/") && !((p.drop (d.length + 1)).data.contains '/') then
      some (p.drop (d.length + 1))
    else
      none))

/-! ## Engine data model -/

/-- One asset-library record (`assets[original]` in the source). -/
structure AssetRecord where
  hashed : Bool
  hash : String
  original : String
  path : String
  type : String
deriving DecidableEq, Repr

/-- The engine's configuration, with the source's defaults.  `base`
defaults to `process.cwd()`, modelled as the empty string. -/
structure Config where
  hasher : String := "sha1"
  hashKey : String := "aH4urS"
  length : Nat := 8
  replace : Bool := false
  manifest : String := "assets.json"
  base : String := ""
  path : String := ""
  save : Bool := true
  template : String := "<%= name %>-<%= hash %>.<%= ext %>"
deriving DecidableEq, Repr

/-- What `require` finds at a manifest path: a parsed object, a falsy
parse result (recovered to `{}` by `|| {}`), or a file whose load throws
(malformed JSON, unreadable file). -/
inductive ManifestContent where
  | parsed (lib : List (String × AssetRecord))
  | nullContent
  | malformed
deriving DecidableEq, Repr

/-- The engine's mutable world: the in-memory asset library, the
filesystem, and the manifest modules `require` can load. -/
structure St where
  assets : List (String × AssetRecord)
  fs : FS
  manifests : List (String × ManifestContent)
deriving DecidableEq, Repr

/-- JavaScript object-key assignment `assets[k] = v`: replace in place
when the key exists, append otherwise. -/
def assocSet (l : List (String × AssetRecord)) (k : String) (v : AssetRecord) :
    List (String × AssetRecord) :=
  if (l.lookup k).isSome then
    l.map (fun e => if e.1 == k then (k, v) else e)
  else
    l ++ [(k, v)]

/-- A file reference reaching `hashFiles`/`hashFile`: a path string
(possibly a glob pattern at the `hashFiles` level), or a vinyl-style
object carrying `path` and `contents`. -/
inductive FileRef where
  | pathRef (p : String)
  | fileObj (fpath : String) (fcontents : Contents)
deriving DecidableEq, Repr

/-- The vinyl branch of content extraction:
`Buffer.isBuffer(file.contents) ? file.contents.toString() : file.contents`. -/
def vinylContents : Contents → Contents
  | .buf b => .str (bytesToString b)
  | c => c

/-! ## The engine

`createHashHex` stands for the external digest provider: given an
algorithm name and the byte content, it returns the full hexadecimal
digest (`crypto.createHash(alg).update(contents).digest('hex')`). -/

section Engine

variable (createHashHex : String → List Nat → String)

/-- `generateHash(contents, hash, length)` (src/index.js:143-149): the
full hex digest truncated by `slice(0, length)` when the contents are
truthy, the empty string otherwise. -/
def generateHash (contents : Contents) (hash : String) (length : Nat) : String :=
  if jsTruthy contents then
    (createHashHex hash (contentBytes contents)).take length
  else
    ""

/-- `hashFile(file, options)` (src/index.js:161-247).  Returns the
result record and the updated world.  The `options.save` branch models
`fs.createReadStream(originalPath).pipe(fs.createWriteStream(result.path))`
by appending to the filesystem's `pending` copies: the pipe is
asynchronous, so no byte reaches `result.path` before the function
returns. -/
def hashFile (file : FileRef) (options : Config) (s : St) :
    Except JsError (AssetRecord × St) := do
  -- Get file contents and path
  let (contents, filePath) ←
    match file with
    | .fileObj fpath fcontents =>
        pure (vinylContents fcontents, pathRelative options.base fpath)
    | .pathRef fpath =>
        match readFile s.fs fpath with
        | some data => pure (Contents.buf (strBytes data), pathRelative options.base fpath)
        | none => throw (.enoent fpath)
  -- Get file name details
  let ext := extname filePath
  let name := basenameExt filePath ext
  let dirPath := dirname filePath
  -- Initialize results object
  let result : AssetRecord := {
    hashed := false
    hash := ""
    original := filePath
    path := filePath
    type := jsReplaceFirst ext "." "" }
  -- If this is a hashed file, return.  Nothing else to do here
  let hashedVersion := jsIncludes filePath options.hashKey
  if hashedVersion then
    pure (result, s)
  else
    let originalPath := result.original
    -- If file was already hashed, get old hash
    let result :=
      match s.assets.lookup originalPath with
      | some r => { result with hashed := r.hashed, hash := r.hash, path := r.path }
      | none => { result with hashed := true }
    -- Generate hash from content
    let newHash := options.hashKey ++ generateHash createHashHex contents options.hasher options.length
    -- If hash was generated
    if result.hash != newHash then
      let result := { result with hash := newHash }
      let result := { result with
        path := pathRelative options.base
          (pathJoin dirPath (renderTemplate options.template name result.hash result.type)) }
      -- Pattern to match previously hashed files; `patterns.join('|')` of
      -- the singleton list is the pattern itself
      let pattern := jsReplaceFirst
        (pathJoin dirPath (renderTemplate options.template name "==HASHREGEX==" result.type))
        "==HASHREGEX==" (options.hashKey ++ "*")
      -- Find any previously hashed file versions
      let hashedOldFiles := globSync s.fs pattern
      -- Delete old hash file(s)
      let fs1 ← hashedOldFiles.foldlM unlinkSync s.fs
      -- Create new hashed file unless instructed to skip: the stream
      -- pipe only schedules the copy
      let fs2 := if options.save then
        { fs1 with pending := fs1.pending ++ [(originalPath, result.path)] }
      else fs1
      -- Remove original file if necessary
      let fs3 ← if options.replace then unlinkSync fs2 originalPath else pure fs2
      -- Add file to or update asset library
      pure (result, { s with assets := assocSet s.assets originalPath result, fs := fs3 })
    else
      pure (result, s)

/-- `loadManifest(opt)` (src/index.js:116-131).  `require` of a missing,
unreadable or malformed manifest throws; the `catch` swallows the error
and leaves the asset library as it was.  A successful `require` replaces
the library wholesale (`|| {}` recovering a falsy parse to the empty
object). -/
def loadManifest (options : Config) (s : St) : Bool × St :=
  let manifestPath := pathJoin options.path options.manifest
  if manifestPath = "" then
    (false, s)
  else
    match s.manifests.lookup (pathJoin processCwd manifestPath) with
    | some (.parsed lib) => (true, { s with assets := lib })
    | some .nullContent => (true, { s with assets := [] })
    | some .malformed => (false, s)
    | none => (false, s)

/-- Processing of one entry returned by `glob.sync` inside `hashFiles`
(src/index.js:302-321): `lstatSync` the entry (throwing `ENOENT` when it
no longer exists), recurse over directory children — where a child
directory hits the unbound identifier `hashFiles` and raises a
`ReferenceError` — and hash regular files. -/
def processGlobEntry (options : Config) (acc : List AssetRecord) (st : St)
    (filePath : String) : Except JsError (List AssetRecord × St) := do
  if st.fs.dirs.contains filePath then
    let dirFiles := readdirSync st.fs filePath
    dirFiles.foldlM (fun r dirFile => do
      let curPath := pathJoin filePath dirFile
      if r.2.fs.dirs.contains curPath then
        throw (.referenceError "hashFiles")
      else if (r.2.fs.files.lookup curPath).isSome then
        let (rec1, st1) ← hashFile createHashHex (.pathRef curPath) options r.2
        pure (r.1 ++ [rec1], st1)
      else
        throw (.enoent curPath)) (acc, st)
  else if (st.fs.files.lookup filePath).isSome then
    let (rec1, st1) ← hashFile createHashHex (.pathRef filePath) options st
    pure (acc ++ [rec1], st1)
  else
    throw (.enoent filePath)

/-- One iteration of the `paths.forEach` loop of `hashFiles`
(src/index.js:298-325): a string is expanded by `glob.sync` against the
current filesystem and each match processed; a non-string file object
goes straight to `hashFile`. -/
def processInput (options : Config) (acc : List AssetRecord × St) (input : FileRef) :
    Except JsError (List AssetRecord × St) := do
  match input with
  | .pathRef pat =>
      let filePaths := globSync acc.2.fs pat
      filePaths.foldlM (fun r fp => processGlobEntry createHashHex options r.1 r.2 fp) acc
  | .fileObj fpath fcontents =>
      let (rec1, st1) ← hashFile createHashHex (.fileObj fpath fcontents) options acc.2
      pure (acc.1 ++ [rec1], st1)

/-- The return value of `hashFiles`: an array when more than one record
was produced, the bare record for exactly one, and JavaScript
`undefined` (`[].shift()`) for zero. -/
inductive HashFilesResult where
  | many (rs : List AssetRecord)
  | one (r : AssetRecord)
  | undef
deriving DecidableEq, Repr

/-- `results.length > 1 ? results : results.shift()` (src/index.js:327). -/
def shapeResult (results : List AssetRecord) : HashFilesResult :=
  if results.length > 1 then .many results
  else
    match results with
    | [] => .undef
    | r :: _ => .one r

/-- `hashFiles(paths, opt)` (src/index.js:284-328) with the options
already merged (`_.clone(config)` + `_.assign(options, opt)`); a single
non-array argument is the singleton list (`paths = [paths]`).  The
manifest is loaded before any path is processed. -/
def hashFiles (paths : List FileRef) (options : Config) (s : St) :
    Except JsError (HashFilesResult × St) := do
  let s := (loadManifest options s).2
  let (results, s') ← paths.foldlM (processInput createHashHex options) ([], s)
  pure (shapeResult results, s')

end Engine

/-! ## A concrete digest provider for evaluation

The digest algorithm itself is an external collaborator (the design
delegates it to the platform's cryptographic provider), so the engine is
verified for every provider; `demoDigest` is one concrete executable
provider used to evaluate the engine on concrete inputs. -/

/-- A sample digest provider: hex digits of the content bytes after a
constant prefix, ignoring the algorithm name.  Total, executable, and
nonempty on every input, like a real hex digest. -/
def demoDigest : String → List Nat → String :=
  fun _ bs => bs.foldl (fun acc b => acc ++ (Nat.toDigits 16 b).asString) "d0"

/-! ## Concrete scenarios -/

/-- A world with one source file and an empty library. -/
def stFresh : St :=
  { assets := []
    fs := { files := [("tmp/logo.png", "v1")], dirs := ["tmp"], pending := [] }
    manifests := [] }

/-- The record produced by hashing `tmp/logo.png` with content `"v1"`
under `demoDigest` and the default configuration. -/
def recLogoV1 : AssetRecord :=
  { hashed := true
    hash := "aH4urSd07631"
    original := "tmp/logo.png"
    path := "tmp/logo-aH4urSd07631.png"
    type := "png" }

/-- A world in which `tmp/logo.png` was hashed while its content was
`"v1"`, and the content has since changed to `"v2"`: the old artifact is
on disk and the library carries the old record. -/
def stChanged : St :=
  { assets := [("tmp/logo.png", recLogoV1)]
    fs := { files := [("tmp/logo.png", "v2"), ("tmp/logo-aH4urSd07631.png", "v1")]
            dirs := ["tmp"]
            pending := [] }
    manifests := [] }

/-- A world with one fresh stylesheet and nothing else. -/
def stCss : St :=
  { assets := []
    fs := { files := [("css/app.css", "body")], dirs := ["css"], pending := [] }
    manifests := [] }

/-- A nonempty asset library used to observe what a failing manifest
load does to in-memory state. -/
def libX : List (String × AssetRecord) :=
  [("x.png", { hashed := true, hash := "aH4urSzz", original := "x.png",
               path := "x-aH4urSzz.png", type := "png" })]

/-- A world whose manifest file exists but is malformed, while the
in-memory library is nonempty. -/
def stBadManifest : St :=
  { assets := libX
    fs := { files := [], dirs := [], pending := [] }
    manifests := [("assets.json", .malformed)] }

/-- A world with no manifest file at all and a nonempty library. -/
def stNoManifest : St :=
  { assets := libX
    fs := { files := [], dirs := [], pending := [] }
    manifests := [] }

/-- The world after a first hash of `tmp/logo.png` with content `"v1"`:
the library holds `recLogoV1` and the artifact copy has been scheduled. -/
def stIdem : St :=
  { assets := [("tmp/logo.png", recLogoV1)]
    fs := { files := [("tmp/logo.png", "v1")]
            dirs := ["tmp"]
            pending := [("tmp/logo.png", "tmp/logo-aH4urSd07631.png")] }
    manifests := [] }

/-- The record produced by re-hashing `tmp/logo.png` once its content is
`"v2"`. -/
def recLogoV2 : AssetRecord :=
  { hashed := true
    hash := "aH4urSd07632"
    original := "tmp/logo.png"
    path := "tmp/logo-aH4urSd07632.png"
    type := "png" }

/-- The world `hashFile` returns from `stChanged`: the stale artifact has
been unlinked, and the copy toward the new artifact is only pending. -/
def stChangedAfter : St :=
  { assets := [("tmp/logo.png", recLogoV2)]
    fs := { files := [("tmp/logo.png", "v2")]
            dirs := ["tmp"]
            pending := [("tmp/logo.png", "tmp/logo-aH4urSd07632.png")] }
    manifests := [] }

/-- The record produced by hashing `css/app.css` with content `"body"`. -/
def recCss : AssetRecord :=
  { hashed := true
    hash := "aH4urSd0626f64"
    original := "css/app.css"
    path := "css/app-aH4urSd0626f64.css"
    type := "css" }

/-- The world `hashFile` returns from `stCss`: the artifact copy is
pending, nothing has been written at `recCss.path`. -/
def stCssAfter : St :=
  { assets := [("css/app.css", recCss)]
    fs := { files := [("css/app.css", "body")]
            dirs := ["css"]
            pending := [("css/app.css", "css/app-aH4urSd0626f64.css")] }
    manifests := [] }

/-- The record for an empty-content first-time file `logo.png`. -/
def recEmptyLogo : AssetRecord :=
  { hashed := true
    hash := "aH4urS"
    original := "logo.png"
    path := "logo-aH4urS.png"
    type := "png" }

/-- The world `hashFile` returns after hashing the empty-content
`logo.png` file object from `stFresh`. -/
def stEmptyAfter : St :=
  { assets := [("logo.png", recEmptyLogo)]
    fs := { files := [("tmp/logo.png", "v1")]
            dirs := ["tmp"]
            pending := [("logo.png", "logo-aH4urS.png")] }
    manifests := [] }

/-- The record for the file object `a.css` with content `"x"`. -/
def recA : AssetRecord :=
  { hashed := true
    hash := "aH4urSd078"
    original := "a.css"
    path := "a-aH4urSd078.css"
    type := "css" }

/-- The record for the file object `b.css` with content `"y"`. -/
def recB : AssetRecord :=
  { hashed := true
    hash := "aH4urSd079"
    original := "b.css"
    path := "b-aH4urSd079.css"
    type := "css" }

/-- The world after hashing the `a.css` file object from `stFresh`. -/
def stAfterA : St :=
  { assets := [("a.css", recA)]
    fs := { files := [("tmp/logo.png", "v1")]
            dirs := ["tmp"]
            pending := [("a.css", "a-aH4urSd078.css")] }
    manifests := [] }

/-- The world after hashing the `b.css` file object from `stAfterA`. -/
def stAfterB : St :=
  { assets := [("a.css", recA), ("b.css", recB)]
    fs := { files := [("tmp/logo.png", "v1")]
            dirs := ["tmp"]
            pending := [("a.css", "a-aH4urSd078.css"), ("b.css", "b-aH4urSd079.css")] }
    manifests := [] }

/-! ## General lemmas about the embedding -/

/-- `path.join` never returns the empty string: a nonempty second
segment survives, and otherwise the result is `"."` or the nonempty
first segment. -/
theorem pathJoin_ne_empty (a b : String) : pathJoin a b ≠ "" := by
  unfold pathJoin
  split
  · split
    · simp
    · assumption
  · split
    · simp_all
    · intro h
      have hd := congrArg String.data h
      simp [String.data_append] at hd

/-- `loadManifest` never touches the filesystem or the manifest store:
only the in-memory library can change. -/
theorem loadManifest_preserves_fs (options : Config) (s : St) :
    (loadManifest options s).2.fs = s.fs ∧
    (loadManifest options s).2.manifests = s.manifests := by
  by_cases hm : pathJoin options.path options.manifest = ""
  · simp [loadManifest, hm]
  · rcases h : (s.manifests.lookup (pathJoin processCwd (pathJoin options.path options.manifest))) with _ | mc
    · simp [loadManifest, hm, h]
    · cases mc <;> simp [loadManifest, hm, h]

/-- Inversion for a successful `Except` bind. -/
theorem except_bind_ok {ε α β : Type} {e : Except ε α} {f : α → Except ε β} {y : β}
    (h : e >>= f = Except.ok y) : ∃ a, e = Except.ok a ∧ f a = Except.ok y := by
  cases e with
  | error err => simp [Bind.bind, Except.bind] at h
  | ok a => exact ⟨a, rfl, by simpa [Bind.bind, Except.bind] using h⟩

/-- Inversion for a successful `Except` map. -/
theorem except_map_ok {ε α β : Type} {g : α → β} {e : Except ε α} {y : β}
    (h : g <$> e = Except.ok y) : ∃ a, e = Except.ok a ∧ g a = y := by
  cases e with
  | error err => simp [Functor.map, Except.map] at h
  | ok a => exact ⟨a, rfl, by simpa [Functor.map, Except.map] using h⟩

/-! ## Claim theorems -/

/-- C1: Idempotence of hashing.  For a source file (path reference or
file object) whose resolved path does not carry the hash-key marker and
whose newly computed hash-key-prefixed digest equals the hash carried
forward from the existing asset-library entry, `hashFile` returns the
existing record's `hash` and `path` and leaves the whole world — files,
directories, pending copies, asset library — unchanged; since the state
is returned unchanged, a second call on the unchanged file is the very
same call and yields the identical record, creating no further artifact. -/
theorem hashFile_unchanged_is_noop
    (chh : String → List Nat → String) (options : Config) (s : St) :
    (∀ (p data : String) (r : AssetRecord),
      readFile s.fs p = some data →
      jsIncludes (pathRelative options.base p) options.hashKey = false →
      s.assets.lookup (pathRelative options.base p) = some r →
      r.hash = options.hashKey ++
        generateHash chh (Contents.buf (strBytes data)) options.hasher options.length →
      hashFile chh (.pathRef p) options s =
        Except.ok ({ hashed := r.hashed, hash := r.hash,
                     original := pathRelative options.base p,
                     path := r.path,
                     type := jsReplaceFirst (extname (pathRelative options.base p)) "." "" }, s))
    ∧
    (∀ (fp : String) (c : Contents) (r : AssetRecord),
      jsIncludes (pathRelative options.base fp) options.hashKey = false →
      s.assets.lookup (pathRelative options.base fp) = some r →
      r.hash = options.hashKey ++
        generateHash chh (vinylContents c) options.hasher options.length →
      hashFile chh (.fileObj fp c) options s =
        Except.ok ({ hashed := r.hashed, hash := r.hash,
                     original := pathRelative options.base fp,
                     path := r.path,
                     type := jsReplaceFirst (extname (pathRelative options.base fp)) "." "" }, s)) := by
  constructor
  · intro p data r h1 h2 h3 h4
    simp only [hashFile, h1]
    simp [h2, h3, h4]
    rfl
  · intro fp c r h2 h3 h4
    simp only [hashFile]
    simp [h2, h3, h4]
    rfl

/-- C1 witness: the concrete world `stIdem` already holds the record for
`tmp/logo.png` with the hash of its current content `"v1"`; the call
returns that record and the world unchanged. -/
theorem hashFile_unchanged_is_noop_witness :
    hashFile demoDigest (.pathRef "tmp/logo.png") {} stIdem =
      Except.ok ({ hashed := recLogoV1.hashed, hash := recLogoV1.hash,
                   original := pathRelative ({} : Config).base "tmp/logo.png",
                   path := recLogoV1.path,
                   type := jsReplaceFirst (extname (pathRelative ({} : Config).base "tmp/logo.png")) "." "" },
                 stIdem) :=
  (hashFile_unchanged_is_noop demoDigest {} stIdem).1 "tmp/logo.png" "v1" recLogoV1
    (by rfl) (by rfl) (by rfl) (by rfl)

/-- C2: Stale-artifact cleanup, evaluated at a world where `tmp/logo.png`
changed from `"v1"` to `"v2"` with its old artifact on disk.  The call
succeeds, unlinks the stale artifact synchronously, and marks the record
hashed — but the newly rendered artifact path does not exist on disk when
the call returns: the copy toward it is only a pending asynchronous
stream pipe, so zero (not exactly one) artifacts for the source exist at
return time. -/
theorem hashFile_stale_cleanup_write_pending :
    hashFile demoDigest (.pathRef "tmp/logo.png") {} stChanged =
      Except.ok (recLogoV2, stChangedAfter) ∧
    recLogoV2.hashed = true ∧
    ({} : Config).save = true ∧
    readFile stChangedAfter.fs "tmp/logo-aH4urSd07631.png" = none ∧
    readFile stChangedAfter.fs recLogoV2.path = none ∧
    stChangedAfter.fs.pending = [("tmp/logo.png", recLogoV2.path)] :=
  ⟨rfl, rfl, rfl, rfl, rfl, rfl⟩

/-- C3: Artifact write completion, evaluated at a fresh stylesheet with
`save` enabled.  At the moment `hashFile` returns, no file exists at the
returned artifact path — the source's content `"body"` has not been
copied there; the copy is merely a pending stream pipe. -/
theorem hashFile_artifact_write_incomplete :
    hashFile demoDigest (.pathRef "css/app.css") {} stCss =
      Except.ok (recCss, stCssAfter) ∧
    ({} : Config).save = true ∧
    readFile stCss.fs "css/app.css" = some "body" ∧
    readFile stCssAfter.fs recCss.path = none ∧
    stCssAfter.fs.pending = [("css/app.css", recCss.path)] :=
  ⟨rfl, rfl, rfl, rfl, rfl⟩

/-- C4: Hashed-artifact short-circuit.  For an input (path reference or
file object) whose resolved relative path contains the configured
`hashKey` substring, `hashFile` returns a record with `hashed = false`,
empty `hash`, and `path` equal to the input path, and the world — files,
directories, pending copies, asset library — is returned unchanged. -/
theorem hashFile_hashKey_short_circuit
    (chh : String → List Nat → String) (options : Config) (s : St) :
    (∀ (p data : String),
      readFile s.fs p = some data →
      jsIncludes (pathRelative options.base p) options.hashKey = true →
      hashFile chh (.pathRef p) options s =
        Except.ok ({ hashed := false, hash := "",
                     original := pathRelative options.base p,
                     path := pathRelative options.base p,
                     type := jsReplaceFirst (extname (pathRelative options.base p)) "." "" }, s))
    ∧
    (∀ (fp : String) (c : Contents),
      jsIncludes (pathRelative options.base fp) options.hashKey = true →
      hashFile chh (.fileObj fp c) options s =
        Except.ok ({ hashed := false, hash := "",
                     original := pathRelative options.base fp,
                     path := pathRelative options.base fp,
                     type := jsReplaceFirst (extname (pathRelative options.base fp)) "." "" }, s)) := by
  constructor
  · intro p data h1 h2
    simp only [hashFile, h1]
    simp [h2]
    rfl
  · intro fp c h2
    simp only [hashFile]
    simp [h2]
    rfl

/-- C4 witness: the on-disk artifact `tmp/logo-aH4urSd07631.png` of
`stChanged` contains the hash key and is returned untouched. -/
theorem hashFile_hashKey_short_circuit_witness :
    hashFile demoDigest (.pathRef "tmp/logo-aH4urSd07631.png") {} stChanged =
      Except.ok ({ hashed := false, hash := "",
                   original := pathRelative ({} : Config).base "tmp/logo-aH4urSd07631.png",
                   path := pathRelative ({} : Config).base "tmp/logo-aH4urSd07631.png",
                   type := jsReplaceFirst (extname (pathRelative ({} : Config).base "tmp/logo-aH4urSd07631.png")) "." "" },
                 stChanged) :=
  (hashFile_hashKey_short_circuit demoDigest {} stChanged).1
    "tmp/logo-aH4urSd07631.png" "v1" (by rfl) (by rfl)

/-- C5 counterexample: hashing the first-seen file object `logo.png`
with empty string content succeeds but returns a record with
`hashed = true` (and performs a library update and a scheduled artifact
copy), not the `hashed = false` record the claim requires. -/
theorem hashFile_empty_contents_cex :
    hashFile demoDigest (.fileObj "logo.png" (Contents.str "")) {} stFresh =
      Except.ok (recEmptyLogo, stEmptyAfter) ∧
    recEmptyLogo.hashed = true ∧
    stEmptyAfter ≠ stFresh :=
  ⟨rfl, rfl, by decide⟩

/-- C5 amended: for a file object with empty (falsy) content, not yet in
the asset library and not carrying the hash-key marker, a completing
`hashFile` call raises no exception, produces an empty digest — the
record's hash is the bare `hashKey` — but reports `hashed = true`, not
`hashed = false`. -/
theorem hashFile_empty_contents_amended
    (chh : String → List Nat → String) (options : Config) (s : St)
    (fp : String) (c : Contents) (rec : AssetRecord) (s' : St)
    (hc : jsTruthy (vinylContents c) = false)
    (hsc : jsIncludes (pathRelative options.base fp) options.hashKey = false)
    (habs : s.assets.lookup (pathRelative options.base fp) = none)
    (hok : hashFile chh (.fileObj fp c) options s = Except.ok (rec, s')) :
    rec.hashed = true ∧ rec.hash = options.hashKey := by
  have hgen : generateHash chh (vinylContents c) options.hasher options.length = "" := by
    simp [generateHash, hc]
  simp only [hashFile] at hok
  simp [hsc, habs, hgen] at hok
  split at hok
  case isTrue h =>
    simp only [pure, Except.pure, Except.ok.injEq, Prod.mk.injEq] at hok
    rw [← hok.1]
    exact ⟨rfl, h⟩
  case isFalse h =>
    obtain ⟨fs1, -, hok2⟩ := except_bind_ok hok
    split at hok2
    · obtain ⟨a, -, heq⟩ := except_map_ok hok2
      simp only [Prod.mk.injEq] at heq
      rw [← heq.1]
      exact ⟨rfl, rfl⟩
    · simp only [pure, Except.pure, Except.ok.injEq, Prod.mk.injEq] at hok2
      rw [← hok2.1]
      exact ⟨rfl, rfl⟩

/-- C5 witness: the amended statement at the concrete empty-content call
of the counterexample world. -/
theorem hashFile_empty_contents_amended_witness :
    recEmptyLogo.hashed = true ∧ recEmptyLogo.hash = ({} : Config).hashKey :=
  hashFile_empty_contents_amended demoDigest {} stFresh "logo.png" (Contents.str "")
    recEmptyLogo stEmptyAfter (by rfl) (by rfl) (by rfl) (by rfl)

/-- C6: Batch return shape.  When the per-file processing of one file
object succeeds, `hashFiles` on the singleton input returns the bare
record (not wrapped in a sequence); when the processing of two file
objects succeeds in sequence, `hashFiles` returns the array of exactly
those two records in input traversal order. -/
theorem hashFiles_batch_shape
    (chh : String → List Nat → String) (options : Config)
    (p1 p2 : String) (c1 c2 : Contents) (s s1 s2 : St) (r1 r2 : AssetRecord)
    (h1 : hashFile chh (.fileObj p1 c1) options (loadManifest options s).2 = Except.ok (r1, s1))
    (h2 : hashFile chh (.fileObj p2 c2) options s1 = Except.ok (r2, s2)) :
    hashFiles chh [.fileObj p1 c1] options s = Except.ok (.one r1, s1) ∧
    hashFiles chh [.fileObj p1 c1, .fileObj p2 c2] options s =
      Except.ok (.many [r1, r2], s2) := by
  constructor
  · simp only [hashFiles, List.foldlM, processInput]
    simp [h1, shapeResult]
  · simp only [hashFiles, List.foldlM, processInput]
    simp only [h1]
    simp [Bind.bind, Except.bind, Functor.map, Except.map, Pure.pure, Except.pure, h2,
      shapeResult]

/-- C6 witness: hashing the file objects `a.css` and `b.css` from
`stFresh` gives the bare record for the singleton batch and the ordered
two-element array for the pair. -/
theorem hashFiles_batch_shape_witness :
    hashFiles demoDigest [.fileObj "a.css" (Contents.str "x")] {} stFresh =
      Except.ok (.one recA, stAfterA) ∧
    hashFiles demoDigest [.fileObj "a.css" (Contents.str "x"), .fileObj "b.css" (Contents.str "y")] {} stFresh =
      Except.ok (.many [recA, recB], stAfterB) :=
  hashFiles_batch_shape demoDigest {} "a.css" "b.css" (Contents.str "x") (Contents.str "y")
    stFresh stAfterA stAfterB recA recB (by rfl) (by rfl)

/-- C7 counterexample: a zero-length `Buffer` is empty content, yet
`generateHash` digests it — the empty buffer is truthy in JavaScript —
so the result is the truncated digest of zero bytes, not the empty
string the claim requires. -/
theorem generateHash_empty_buffer_cex :
    generateHash demoDigest (Contents.buf []) "sha1" 8 = "d0" ∧
    generateHash demoDigest (Contents.buf []) "sha1" 8 ≠ "" :=
  ⟨rfl, by decide⟩

/-- C7 amended: `generateHash` returns the empty string when the content
is an empty *string* or absent (`null`); any `Buffer`, including a
zero-length one, and any nonempty string are digested in full and the
digest is then truncated to at most `length` characters — truncation
happens after the digest, never by re-hashing. -/
theorem generateHash_contract_amended
    (chh : String → List Nat → String) (alg : String) (len : Nat) :
    (generateHash chh (Contents.str "") alg len = "") ∧
    (generateHash chh Contents.nullv alg len = "") ∧
    (∀ b : List Nat, generateHash chh (Contents.buf b) alg len = (chh alg b).take len) ∧
    (∀ str : String, str ≠ "" →
      generateHash chh (Contents.str str) alg len = (chh alg (strBytes str)).take len) := by
  refine ⟨rfl, rfl, fun b => rfl, fun str hs => ?_⟩
  simp [generateHash, jsTruthy, contentBytes, hs]

/-- C7 witness: the amended digest contract evaluated at the sample
provider, for an empty string, a two-byte buffer, and the string `"v1"`. -/
theorem generateHash_contract_amended_witness :
    generateHash demoDigest (Contents.str "") "sha1" 8 = "" ∧
    generateHash demoDigest (Contents.buf [1, 2]) "sha1" 8 = (demoDigest "sha1" [1, 2]).take 8 ∧
    generateHash demoDigest (Contents.str "v1") "sha1" 8 = (demoDigest "sha1" (strBytes "v1")).take 8 :=
  ⟨(generateHash_contract_amended demoDigest "sha1" 8).1,
   (generateHash_contract_amended demoDigest "sha1" 8).2.2.1 [1, 2],
   (generateHash_contract_amended demoDigest "sha1" 8).2.2.2 "v1" (by decide)⟩

/-- C8 counterexample: loading a malformed manifest over a *nonempty*
in-memory library leaves the library exactly as it was — nonempty — not
empty as the claim requires. -/
theorem loadManifest_malformed_cex :
    loadManifest {} stBadManifest = (false, stBadManifest) ∧
    stBadManifest.assets ≠ [] :=
  ⟨rfl, by decide⟩

/-- C8 amended: a malformed manifest is recovered locally — the
`require` failure is caught, no exception reaches the caller — and is
treated identically to a missing manifest: the asset library is left
*unchanged* (so it is empty only when it was already empty), rather than
being reset to empty. -/
theorem loadManifest_failure_unchanged
    (options : Config) (s : St)
    (hm : s.manifests.lookup (pathJoin processCwd (pathJoin options.path options.manifest)) =
            some ManifestContent.malformed ∨
          s.manifests.lookup (pathJoin processCwd (pathJoin options.path options.manifest)) = none) :
    loadManifest options s = (false, s) := by
  by_cases hmp : pathJoin options.path options.manifest = ""
  · simp [loadManifest, hmp]
  · rcases hm with hm | hm <;> simp [loadManifest, hmp, hm]

/-- C8 witness: the amended statement at a world with no manifest file
and a nonempty library. -/
theorem loadManifest_failure_unchanged_witness :
    loadManifest {} stNoManifest = (false, stNoManifest) :=
  loadManifest_failure_unchanged {} stNoManifest (Or.inr rfl)

/-- C9: Implicit manifest reload.  `hashFiles` performs `loadManifest`
before touching any path; when the manifest file parses, the entire
in-memory library is replaced wholesale by the manifest's contents, so
the result of `hashFiles` is independent of whatever library entries had
accumulated in memory beforehand. -/
theorem hashFiles_reloads_manifest_wholesale
    (chh : String → List Nat → String) (paths : List FileRef) (options : Config)
    (a1 a2 : List (String × AssetRecord)) (fs : FS)
    (m : List (String × ManifestContent)) (lib : List (String × AssetRecord))
    (hm : m.lookup (pathJoin processCwd (pathJoin options.path options.manifest)) =
          some (ManifestContent.parsed lib)) :
    loadManifest options { assets := a1, fs := fs, manifests := m } =
      (true, { assets := lib, fs := fs, manifests := m }) ∧
    hashFiles chh paths options { assets := a1, fs := fs, manifests := m } =
      hashFiles chh paths options { assets := a2, fs := fs, manifests := m } := by
  have hne := pathJoin_ne_empty options.path options.manifest
  constructor
  · simp [loadManifest, hne, hm]
  · simp only [hashFiles]
    simp [loadManifest, hne, hm]

/-- C9 witness: with a parsable manifest holding `libX`, two worlds that
differ only in their in-memory libraries load to the same state and run
`hashFiles` to the same result. -/
theorem hashFiles_reloads_manifest_wholesale_witness :
    loadManifest {} { assets := [], fs := stFresh.fs, manifests := [("assets.json", .parsed libX)] } =
      (true, { assets := libX, fs := stFresh.fs, manifests := [("assets.json", .parsed libX)] }) ∧
    hashFiles demoDigest [] {} { assets := [], fs := stFresh.fs, manifests := [("assets.json", .parsed libX)] } =
      hashFiles demoDigest [] {} { assets := libX, fs := stFresh.fs, manifests := [("assets.json", .parsed libX)] } :=
  hashFiles_reloads_manifest_wholesale demoDigest [] {} [] libX stFresh.fs
    [("assets.json", .parsed libX)] libX (by rfl)

/-- C10: Zero processed files.  With an empty list of paths, or with a
single glob pattern matching no filesystem entry, `hashFiles` succeeds
and returns `undef` — the JavaScript `undefined` that `[].shift()`
produces — neither a record nor an empty array. -/
theorem hashFiles_zero_files_undefined
    (chh : String → List Nat → String) (options : Config) (s : St) :
    (hashFiles chh [] options s = Except.ok (.undef, (loadManifest options s).2)) ∧
    (∀ pat : String, globSync s.fs pat = [] →
      hashFiles chh [.pathRef pat] options s =
        Except.ok (.undef, (loadManifest options s).2)) := by
  constructor
  · simp [hashFiles, List.foldlM, shapeResult]
    rfl
  · intro pat hg
    have hfs := (loadManifest_preserves_fs options s).1
    simp only [hashFiles, List.foldlM, processInput]
    simp [hfs, hg, shapeResult]
    rfl

/-- C10 witness: an empty batch over `stFresh`, and the pattern
`nomatch/*.css` that matches nothing there, both return `undef`. -/
theorem hashFiles_zero_files_undefined_witness :
    hashFiles demoDigest [] {} stFresh = Except.ok (.undef, (loadManifest {} stFresh).2) ∧
    hashFiles demoDigest [.pathRef "nomatch/*.css"] {} stFresh =
      Except.ok (.undef, (loadManifest {} stFresh).2) :=
  ⟨(hashFiles_zero_files_undefined demoDigest {} stFresh).1,
   (hashFiles_zero_files_undefined demoDigest {} stFresh).2 "nomatch/*.css" (by rfl)⟩

end AssetHash
